import Mathlib

/-!
# TravIS python-backend: shallow embedding and verification

This file embeds the turn-orchestration core of the TravIS python backend
(`python-backend/config.py`, `python-backend/optimized_agents.py`,
`python-backend/api.py`, agent registry data from
`python-backend/simple_agents.py`) as executable Lean definitions and proves
properties of that embedding.

Modelling conventions:
* Python floats holding exact small decimals (rate-limit delays, timestamps,
  TTLs) are modelled as rationals `ℚ`; event-loop time is an explicit value
  threaded through every state-changing step, and `asyncio.sleep d` advances
  it by exactly `d`.
* Python dicts are modelled as association lists with a replace-on-insert
  discipline, so each key has at most one binding, as in a dict.
* Python object identity (the in-memory conversation store hands out the very
  state object it stores, so in-place mutation is visible without `save`) is
  modelled by a heap: the store maps conversation ids to cell references and
  the cells hold the states.
* The opaque model-invocation capability (`Runner.run` of the agents SDK) is
  an oracle parameter: per attempt it either returns a result (final output,
  produced items, canonical transcript) or fails; a run may also mutate the
  shared context object, so an outcome carries the post-run context.
* `hashlib.md5` is a deterministic fingerprint; only its determinism and its
  input data matter to any property here, so the fingerprint is modelled by
  its (serialized) preimage. `str()` / `json.dumps` serializations are
  modelled structurally (double quotes instead of Python repr quoting); the
  properties proved depend only on which data feeds the serialization, never
  on the exact byte format.
-/

namespace TravIS

/-! ## config.py -/

/-- `config.RATE_LIMIT_DELAY` — delay between requests in seconds. -/
def RATE_LIMIT_DELAY : ℚ := 1

/-- `config.MAX_RETRIES`. -/
def MAX_RETRIES : Nat := 3

/-- `config.RETRY_DELAY` — base backoff delay in seconds. -/
def RETRY_DELAY : ℚ := 2

/-- `config.FAST_MODEL`. -/
def FAST_MODEL : String := "gpt-3.5-turbo"

/-- `config.MAX_CONTEXT_LENGTH` — maximum retained text length per entry. -/
def MAX_CONTEXT_LENGTH : Nat := 4000

/-- `config.MAX_CONVERSATION_HISTORY` — maximum retained transcript entries. -/
def MAX_CONVERSATION_HISTORY : Nat := 10

/-- `config.CACHE_RESPONSES`. -/
def CACHE_RESPONSES : Bool := true

/-- `config.CACHE_TTL` — cache time-to-live, 5 minutes. -/
def CACHE_TTL : ℚ := 300

/-! ## Data model -/

/-- A context field value.  Context fields of the airline context are
optional strings; Python `None` is `Value.none_` (also the result of
`dict.get` on a missing key). -/
inductive Value where
  | none_ : Value
  | str (s : String) : Value
deriving DecidableEq

/-- A context: the `model_dump()` view of the Pydantic context object, a map
from field name to value, modelled as an association list. -/
abbrev Ctx := List (String × Value)

/-- Python `d.get(k)` on a context dict: the value, or `None` when absent. -/
def pyGet (d : Ctx) (k : String) : Value :=
  match d.lookup k with
  | some v => v
  | none => Value.none_

/-- Python `str.strip()`: remove leading and trailing whitespace. -/
def pyStrip (s : String) : String :=
  String.mk (((s.data.dropWhile Char.isWhitespace).reverse.dropWhile Char.isWhitespace).reverse)

/-- A transcript entry: a role-tagged item of the conversation history
(`{"role": ..., "content": ...}`). -/
structure Entry where
  role : String
  content : String
deriving DecidableEq

/-- The input to an invocation: `Union[str, List[Dict[str, Any]]]` in
`OptimizedAgent.run_with_optimization`. -/
inductive InputData where
  | str (s : String) : InputData
  | list (items : List Entry) : InputData
deriving DecidableEq

/-- A produced item of a run (`result.new_items`), tagged like the agents
SDK item classes consumed by `api.py`. -/
inductive Item where
  | message (agent : String) (text : String) : Item
  | handoff (source target : String) : Item
  | toolCall (agent : String) (toolName : Option String) (rawArgs : Option String) : Item
  | toolOutput (agent : String) (output : String) : Item
deriving DecidableEq

/-- The result of a successful model invocation: final output, produced
items, and the canonical updated transcript (`to_input_list()`). -/
structure RunResult where
  final_output : String
  new_items : List Item
  to_input_list : List Entry
deriving DecidableEq

/-! ## config.py — rate limiter -/

/-- `config.RateLimiter` state: the configured minimum delay and the time of
the last granted request. -/
structure RateLimiter where
  delay : ℚ
  last_request : ℚ
deriving DecidableEq

/-- `RateLimiter.wait`: reads the clock; if less than `delay` has elapsed
since the last grant it sleeps the difference; then records the grant time.
Returns the new limiter state and the new clock value. -/
def RateLimiter.wait (rl : RateLimiter) (now : ℚ) : RateLimiter × ℚ :=
  let now2 := if now - rl.last_request < rl.delay then rl.last_request + rl.delay else now
  ({ rl with last_request := now2 }, now2)

/-! ## config.py — response cache -/

/-- One binding of `config.response_cache`: the cached response and the
insertion timestamp. -/
structure CacheEntry where
  response : RunResult
  timestamp : ℚ
deriving DecidableEq

/-- `config.response_cache`, a dict from key to entry. -/
abbrev Cache := List (String × CacheEntry)

/-- Python `del d[k]` / replace-on-insert helper: drop every binding of `k`. -/
def eraseKey (c : Cache) (k : String) : Cache :=
  c.filter (fun p => ¬ p.1 = k)

/-- `config.get_cached_response`: returns the cached response if present and
not expired; an expired entry is deleted in place (the possibly shrunk cache
is returned alongside).  A cached `Runner.run` result is an object, hence
truthy, so the caller's `if cached_response:` test is exactly `isSome`. -/
def get_cached_response (now : ℚ) (key : String) (c : Cache) : Option RunResult × Cache :=
  if CACHE_RESPONSES = false then (none, c)
  else
    match c.lookup key with
    | some e =>
        if now - e.timestamp < CACHE_TTL then (some e.response, c)
        else (none, eraseKey c key)
    | none => (none, c)

/-- `config.cache_response`: store a response under `key` with the current
time as its timestamp. -/
def cache_response (now : ℚ) (key : String) (r : RunResult) (c : Cache) : Cache :=
  if CACHE_RESPONSES = false then c
  else (key, ⟨r, now⟩) :: eraseKey c key

/-! ## optimized_agents.py — serialization used by the cache key

`_create_cache_key` serializes with Python `str()` and `json.dumps`.  The
model uses double-quoted structural serializations; only determinism and the
identity of the serialized data matter to the properties below. -/

/-- `str()` of one transcript entry (a dict with `content` and `role`). -/
def pyStrEntry (e : Entry) : String :=
  "\x7b\"content\": \"" ++ e.content ++ "\", \"role\": \"" ++ e.role ++ "\"\x7d"

/-- `str()` of the invocation input (a plain string, or a list of entries). -/
def pyStrInput : InputData → String
  | InputData.str s => s
  | InputData.list items => "[" ++ String.intercalate ", " (items.map pyStrEntry) ++ "]"

/-- `str()` of one context field value. -/
def pyStrValue : Value → String
  | Value.none_ => "None"
  | Value.str s => "\"" ++ s ++ "\""

/-- `str()` of the (Pydantic) context object: its fields in declaration
order. -/
def pyStrCtx (c : Ctx) : String :=
  String.intercalate " " (c.map (fun p => p.1 ++ "=" ++ pyStrValue p.2))

/-- The data `_create_cache_key` feeds the fingerprint: the four entries of
its `key_data` dict. -/
structure CacheKeyData where
  input : String
  context : Option String
  agent : String
  model : String
deriving DecidableEq

/-- `json.dumps(key_data, sort_keys=True)`: the four fields rendered in
sorted key order (`agent`, `context`, `input`, `model`). -/
def json_dumps_sorted (d : CacheKeyData) : String :=
  "\x7b\"agent\": \"" ++ d.agent ++ "\", \"context\": " ++
    (match d.context with
     | none => "null"
     | some s => "\"" ++ s ++ "\"") ++
    ", \"input\": \"" ++ d.input ++ "\", \"model\": \"" ++ d.model ++ "\"\x7d"

/-- `hashlib.md5(_).hexdigest()`: a deterministic fingerprint of its input
string.  Collisions play no role in any property here, so the fingerprint is
modelled by the input string itself. -/
def md5_fingerprint (s : String) : String := s

/-- `OptimizedAgent._create_cache_key`, up to the fingerprint: the key data
is built from `str(input_data)` (the argument as given, line 78),
`str(context) if context else None` (line 79), the agent name and the model
identifier. -/
def _create_cache_key (agentName model : String) (input : InputData)
    (context : Option Ctx) : CacheKeyData :=
  { input := pyStrInput input
    context := context.map pyStrCtx
    agent := agentName
    model := model }

/-- The full cache key string used by `run_with_optimization`. -/
def cache_key_of (agentName model : String) (input : InputData)
    (context : Option Ctx) : String :=
  md5_fingerprint (json_dumps_sorted (_create_cache_key agentName model input context))

/-! ## optimized_agents.py — input/context optimization -/

/-- Truncation of a single text to `MAX_CONTEXT_LENGTH` characters plus an
ellipsis (`content[:MAX_CONTEXT_LENGTH] + "..."`); Python slices strings by
code points, modelled on the character list. -/
def truncateContent (s : String) : String :=
  if s.length > MAX_CONTEXT_LENGTH then String.mk (s.data.take MAX_CONTEXT_LENGTH) ++ "..."
  else s

/-- Entry-wise truncation (`item['content'] = content[:MAX] + "..."`). -/
def truncateEntry (e : Entry) : Entry :=
  { e with content := truncateContent e.content }

/-- `OptimizedAgent._optimize_input`.  A string input is truncated.  A list
longer than `MAX_CONVERSATION_HISTORY` is trimmed to the first entry plus
the most recent `MAX_CONVERSATION_HISTORY - 1` entries and returned at once
(line 98: `return optimized` — without entry-wise truncation); only a list
within the bound has each entry's text truncated. -/
def _optimize_input : InputData → InputData
  | InputData.str s => InputData.str (truncateContent s)
  | InputData.list items =>
      if items.length > MAX_CONVERSATION_HISTORY then
        InputData.list (items.take 1 ++
          items.drop (items.length - (MAX_CONVERSATION_HISTORY - 1)))
      else
        InputData.list (items.map truncateEntry)

/-- The allow-listed context fields (`essential_fields`). -/
def essential_fields : List String :=
  ["passenger_name", "confirmation_number", "flight_number", "booking_reference"]

/-- `OptimizedAgent._optimize_context`: `None` passes through; otherwise the
`model_dump()` of the context is filtered to the essential fields and a
fresh context of the same class is built from the subset (a field absent
from a map-modelled context reads back as `None`, as the omitted Pydantic
field defaults to). -/
def _optimize_context : Option Ctx → Option Ctx
  | none => none
  | some c => some (c.filter (fun p => p.1 ∈ essential_fields))

/-! ## optimized_agents.py — fallback and retry loop -/

/-- The fixed apology of `OptimizedAgent._create_fallback_response`. -/
def optimized_fallback_message : String :=
  "I apologize, but I\x27m experiencing high demand right now. " ++
  "Please try again in a moment. For immediate assistance, you can: " ++
  "1. Check your booking reference directly, " ++
  "2. Contact our support line, or " ++
  "3. Try again in a few minutes."

/-- `OptimizedAgent._create_fallback_response`: a response object with the
apology as final output, an empty `new_items` list, and a `to_input_list`
returning the empty list. -/
def _create_fallback_response : RunResult :=
  { final_output := optimized_fallback_message
    new_items := []
    to_input_list := [] }

/-- Classified outcome of `run_with_optimization`: either a genuine (or
cached) run result, or the synthesized fallback response. -/
inductive CallOutcome where
  | ok (r : RunResult) : CallOutcome
  | fallback (r : RunResult) : CallOutcome
deriving DecidableEq

/-- The shared mutable state `run_with_optimization` touches: the global
response cache, the global rate limiter, and the event-loop clock. -/
structure Sys where
  cache : Cache
  rl : RateLimiter
  now : ℚ
deriving DecidableEq

/-- The retry loop of `run_with_optimization` (lines 50–73), recursing on
the remaining loop iterations.  `invoke n` is the (opaque) outcome of the
`Runner.run` call on loop iteration `attempt = n`.  Returns the outcome, the
updated state, the backoff delays slept in order, and the number of attempts
made.  The `remaining = 0` base case is the `return` after an empty loop. -/
def retryLoopAux (invoke : Nat → Except String RunResult) (key : String)
    (maxRetries : Nat) : Nat → Nat → Sys → CallOutcome × Sys × List ℚ × Nat
  | _, 0, sys => (CallOutcome.fallback _create_fallback_response, sys, [], 0)
  | attempt, remaining + 1, sys =>
      match invoke attempt with
      | Except.ok res =>
          (CallOutcome.ok res,
            { sys with cache := cache_response sys.now key res sys.cache }, [], 1)
      | Except.error _ =>
          if attempt < maxRetries - 1 then
            let d := RETRY_DELAY * 2 ^ attempt
            let sys2 := { sys with now := sys.now + d }
            let r := retryLoopAux invoke key maxRetries (attempt + 1) remaining sys2
            (r.1, r.2.1, d :: r.2.2.1, r.2.2.2 + 1)
          else
            (CallOutcome.fallback _create_fallback_response, sys, [], 1)

/-- Observable trace of one `run_with_optimization` call: the cache key it
used, how many rate-limiter waits it performed, the backoff delays slept,
the number of `Runner.run` attempts, and the (optimized) argument pair
passed to every attempt (`none` when no attempt ran). -/
structure RunTrace where
  keyUsed : String
  waits : Nat
  sleeps : List ℚ
  attempts : Nat
  invokedWith : Option (InputData × Option Ctx)
deriving DecidableEq

/-- `OptimizedAgent.run_with_optimization`: compute the cache key from the
raw arguments; on a cache hit return the cached response at once; on a miss
await the rate limiter once, optimize input and context, then run the retry
loop. -/
def run_with_optimization (agentName model : String)
    (invoke : Nat → Except String RunResult) (input : InputData)
    (context : Option Ctx) (maxRetries : Nat) (sys : Sys) :
    CallOutcome × Sys × RunTrace :=
  let key := cache_key_of agentName model input context
  let hit := get_cached_response sys.now key sys.cache
  let sys1 : Sys := { sys with cache := hit.2 }
  match hit.1 with
  | some r =>
      (CallOutcome.ok r, sys1,
        { keyUsed := key, waits := 0, sleeps := [], attempts := 0, invokedWith := none })
  | none =>
      let w := RateLimiter.wait sys1.rl sys1.now
      let sys2 : Sys := { sys1 with rl := w.1, now := w.2 }
      let optInput := _optimize_input input
      let optCtx := _optimize_context context
      let r := retryLoopAux invoke key maxRetries 0 maxRetries sys2
      (r.1, r.2.1,
        { keyUsed := key, waits := 1, sleeps := r.2.2.1, attempts := r.2.2.2
          invokedWith := if maxRetries = 0 then none else some (optInput, optCtx) })

/-! ## simple_agents.py — agent registry data -/

/-- `simple_triage_agent.name`. -/
def triage_name : String := "Triage Agent"

/-- `simple_faq_agent.name`. -/
def faq_name : String := "FAQ Agent"

/-- `simple_trip_agent.name`. -/
def trip_name : String := "Trip Management Agent"

/-- The names registered in `api._get_agent_by_name`'s dict. -/
def registered_agents : List String := [triage_name, faq_name, trip_name]

/-- `api._get_agent_by_name`: dict lookup with the triage agent as default
for an unknown name.  Agents are identified by name. -/
def _get_agent_by_name (name : String) : String :=
  if name ∈ registered_agents then name else triage_name

/-- The agent-valued handoff targets declared in `simple_agents.py`:
the triage agent hands off to the FAQ and trip agents, and each of those
hands back to the triage agent (no agent declares itself). -/
def declared_handoffs (name : String) : List String :=
  if name = triage_name then [faq_name, trip_name]
  else if name = faq_name then [triage_name]
  else if name = trip_name then [triage_name]
  else []

/-- The `on_handoff` callback a declared handoff carries, recovered in
`api.py` by closure introspection of `Handoff.on_invoke_handoff`.  In
`simple_agents.py` the `handoffs` lists hold raw `Agent` objects — never
`Handoff` wrappers — so `isinstance(h, Handoff)` fails and no callback is
ever found. -/
def handoff_callback (_source _target : String) : Option String := none

/-- One roster entry of `api._build_agents_list`. -/
structure AgentInfo where
  name : String
  description : String
  handoffs : List String
  tools : List String
deriving DecidableEq

/-- `api._build_agents_list`: the static roster (the triage agent's
`handoffs` list also holds the two plain tools appended there, whose `name`
attribute is read by the roster builder). -/
def agents_roster : List AgentInfo :=
  [ { name := triage_name
      description := "A triage agent that can help with various airline services."
      handoffs := [faq_name, trip_name, "current_date_tool", "current_time_tool"]
      tools := ["lookup_trip_data", "get_trip_statistics", "search_trips", "faq_lookup_tool"] }
  , { name := faq_name
      description := "A helpful agent that can answer questions about the airline."
      handoffs := [triage_name]
      tools := ["faq_lookup_tool", "current_date_tool", "current_time_tool"] }
  , { name := trip_name
      description := "An agent that can help with trip data lookup and management like CRUD operations."
      handoffs := [triage_name]
      tools := ["lookup_trip_data", "get_trip_statistics", "search_trips",
                "current_date_tool", "current_time_tool", "cancel_upcoming_trip_or_booking"] } ]

/-! ## api.py — response and state types -/

/-- `api.MessageResponse`. -/
structure MessageResponse where
  content : String
  agent : String
deriving DecidableEq

/-- The `metadata` payloads `api.py` attaches to events. -/
inductive Metadata where
  | handoffMeta (source target : String) : Metadata
  | toolArgs (args : Option String) : Metadata
  | toolResult (output : String) : Metadata
  | changes (m : List (String × Value)) : Metadata
deriving DecidableEq

/-- `api.AgentEvent`.  Event ids (`uuid4().hex`) are modelled by a fresh
counter rendered to a string; `api.py`'s chat endpoint never sets
`timestamp`, so it stays `none`. -/
structure AgentEvent where
  id : String
  type : String
  agent : String
  content : String
  metadata : Option Metadata
  timestamp : Option ℚ
deriving DecidableEq

/-- `api.ChatResponse`. -/
structure ChatResponse where
  conversation_id : String
  current_agent : String
  messages : List MessageResponse
  events : List AgentEvent
  context : Ctx
  agents : List AgentInfo
deriving DecidableEq

/-- One conversation state dict as stored by the conversation store. -/
structure ConvState where
  input_items : List Entry
  context : Ctx
  current_agent : String
deriving DecidableEq

instance : Inhabited ConvState := ⟨⟨[], [], ""⟩⟩

/-- The `InMemoryConversationStore` plus Python object identity: the store
maps conversation ids to cell references, the cells (a function heap) hold
the state dicts.  `get` hands out the reference — so in-place mutation of a
fetched state is visible in the store without `save`. -/
structure Heap where
  store : List (String × Nat)
  cells : Nat → ConvState
  nextRef : Nat

/-- Read the state dict held by cell `r`. -/
def heapGet (h : Heap) (r : Nat) : ConvState := h.cells r

/-- In-place mutation of the state dict held by cell `r`. -/
def heapSet (h : Heap) (r : Nat) (s : ConvState) : Heap :=
  { h with cells := fun r' => if r' = r then s else h.cells r' }

/-- Allocate a fresh cell holding `s`; returns the reference. -/
def heapAlloc (h : Heap) (s : ConvState) : Heap × Nat :=
  ({ h with cells := fun r' => if r' = h.nextRef then s else h.cells r'
            nextRef := h.nextRef + 1 },
   h.nextRef)

/-- `conversation_store.save`: bind the conversation id to the cell. -/
def storeSave (h : Heap) (cid : String) (r : Nat) : Heap :=
  { h with store := (cid, r) :: h.store.filter (fun p => ¬ p.1 = cid) }

/-- The test `is_new = not req.conversation_id or conversation_store.get(...)
is None` of line 136, resolved: `none` when the request id is absent, the
empty string (falsy in Python), or unknown to the store; otherwise the id
and its cell reference. -/
def lookupConversation (h : Heap) : Option String → Option (String × Nat)
  | none => none
  | some cid =>
      if cid = "" then none
      else (h.store.lookup cid).map (fun r => (cid, r))

/-- Outcome of one opaque `Runner.run` call: a result, or a raised
exception.  Either way the run may have mutated the shared context object in
place, so the outcome carries the context as it stands afterwards. -/
inductive RunnerOutcome where
  | ok (r : RunResult) (ctxAfter : Ctx) : RunnerOutcome
  | err (e : String) (ctxAfter : Ctx) : RunnerOutcome
deriving DecidableEq

/-- `api.ChatRequest`. -/
structure ChatRequest where
  conversation_id : Option String
  message : String
deriving DecidableEq

/-- Observable trace of one chat turn: rate-limiter waits performed and the
number of primary / follow-up `Runner.run` calls made. -/
structure TurnTrace where
  waits : Nat
  primary_runs : Nat
  followup_runs : Nat
deriving DecidableEq

/-- Everything a chat turn returns and mutates. -/
structure TurnResult where
  response : ChatResponse
  heap : Heap
  rl : RateLimiter
  now : ℚ
  cache : Cache
  trace : TurnTrace

/-- The fallback apology of `api.chat_endpoint`'s `except` branch. -/
def api_fallback_message : String :=
  "I apologize, but I\x27m experiencing technical difficulties. Please try again in a moment."

/-! ## api.py — item classification (lines 199–281 and 289–329) -/

/-- Accumulator of the item loops. -/
structure EvState where
  messages : List MessageResponse
  events : List AgentEvent
  current_agent : String
  handed_off : Bool
  nextId : Nat

/-- Classify one produced item, primary-loop rules (lines 200–281): a
message appends a message/event pair; a handoff appends a handoff event
(plus a synthetic tool_call event when the declared handoff carries a
callback), switches `current_agent` to the target and sets the flag; a tool
call appends a tool_call event (plus the seat-map sentinel message when the
tool is `display_seat_map`); a tool output appends a tool_output event. -/
def processItem (st : EvState) : Item → EvState
  | Item.message agent text =>
      { st with
        messages := st.messages ++ [⟨text, agent⟩]
        events := st.events ++
          [⟨toString st.nextId, "message", agent, text, none, none⟩]
        nextId := st.nextId + 1 }
  | Item.handoff source target =>
      let st1 : EvState :=
        { st with
          events := st.events ++
            [⟨toString st.nextId, "handoff", source, source ++ " -> " ++ target,
              some (Metadata.handoffMeta source target), none⟩]
          nextId := st.nextId + 1 }
      let st2 : EvState :=
        match handoff_callback source target with
        | some cb =>
            { st1 with
              events := st1.events ++
                [⟨toString st1.nextId, "tool_call", target, cb, none, none⟩]
              nextId := st1.nextId + 1 }
        | none => st1
      { st2 with current_agent := target, handed_off := true }
  | Item.toolCall agent toolName rawArgs =>
      let st1 : EvState :=
        { st with
          events := st.events ++
            [⟨toString st.nextId, "tool_call", agent, toolName.getD "",
              some (Metadata.toolArgs rawArgs), none⟩]
          nextId := st.nextId + 1 }
      if toolName = some "display_seat_map" then
        { st1 with messages := st1.messages ++ [⟨"DISPLAY_SEAT_MAP", agent⟩] }
      else st1
  | Item.toolOutput agent output =>
      { st with
        events := st.events ++
          [⟨toString st.nextId, "tool_output", agent, output,
            some (Metadata.toolResult output), none⟩]
        nextId := st.nextId + 1 }

/-- The primary item loop. -/
def processItems (items : List Item) (st : EvState) : EvState :=
  items.foldl processItem st

/-- Classify one produced item, follow-up-loop rules (lines 289–329): as the
primary loop but with no handoff arm at all — a handoff item of the
follow-up produces nothing and switches nothing. -/
def processFollowItem (st : EvState) : Item → EvState
  | Item.message agent text =>
      { st with
        messages := st.messages ++ [⟨text, agent⟩]
        events := st.events ++
          [⟨toString st.nextId, "message", agent, text, none, none⟩]
        nextId := st.nextId + 1 }
  | Item.handoff _ _ => st
  | Item.toolCall agent toolName rawArgs =>
      let st1 : EvState :=
        { st with
          events := st.events ++
            [⟨toString st.nextId, "tool_call", agent, toolName.getD "",
              some (Metadata.toolArgs rawArgs), none⟩]
          nextId := st.nextId + 1 }
      if toolName = some "display_seat_map" then
        { st1 with messages := st1.messages ++ [⟨"DISPLAY_SEAT_MAP", agent⟩] }
      else st1
  | Item.toolOutput agent output =>
      { st with
        events := st.events ++
          [⟨toString st.nextId, "tool_output", agent, output,
            some (Metadata.toolResult output), none⟩]
        nextId := st.nextId + 1 }

/-- The follow-up item loop. -/
def processFollowItems (items : List Item) (st : EvState) : EvState :=
  items.foldl processFollowItem st

/-- The context diff of lines 333–334:
`{k: new[k] for k in new if old.get(k) != new[k]}`. -/
def computeChanges (old newCtx : Ctx) : List (String × Value) :=
  newCtx.filter (fun kv => ¬ pyGet old kv.1 = kv.2)

/-- The target of the last handoff item of a produced-item list, if any —
the value `current_agent` holds after the primary item loop (each handoff
overwrites it). -/
def lastHandoffTarget (items : List Item) : Option String :=
  items.foldl
    (fun acc it =>
      match it with
      | Item.handoff _ t => some t
      | _ => acc)
    none

/-- Whether a produced-item list contains a handoff item — the value of the
`handed_off` flag after the primary item loop. -/
def hasHandoff (items : List Item) : Bool :=
  items.any (fun it =>
    match it with
    | Item.handoff _ _ => true
    | _ => false)

/-! ## api.py — the chat turn (lines 161–357) -/

/-- The body of `api.chat_endpoint` once the conversation id `cid` and its
cell `ref` are settled (lines 161–357): append the user message in place,
snapshot the context, await the rate limiter, run the current agent;
on an exception append the apology in place and return at once (no `save`);
on success classify the items, run the one-shot follow-up after a handoff
(its failure is swallowed), append the context-diff event, and persist by
replacing the stored transcript with the **primary** result's
`to_input_list()` and saving. -/
def chat_turn (cid : String) (ref : Nat) (msg : String)
    (primaryOut followOut : RunnerOutcome)
    (heap : Heap) (rl : RateLimiter) (cache : Cache) (now : ℚ) : TurnResult :=
  let st0 := heapGet heap ref
  let current_agent := _get_agent_by_name st0.current_agent
  let heap1 := heapSet heap ref
    { st0 with input_items := st0.input_items ++ [⟨"user", msg⟩] }
  let old_context := (heapGet heap1 ref).context
  let w := RateLimiter.wait rl now
  match primaryOut with
  | RunnerOutcome.err _ ctxAfter =>
      let heap2 := heapSet heap1 ref { heapGet heap1 ref with context := ctxAfter }
      let st2 := heapGet heap2 ref
      let heap3 := heapSet heap2 ref
        { st2 with input_items := st2.input_items ++ [⟨"assistant", api_fallback_message⟩] }
      { response :=
          { conversation_id := cid
            current_agent := current_agent
            messages := [⟨api_fallback_message, current_agent⟩]
            events := []
            context := (heapGet heap3 ref).context
            agents := agents_roster }
        heap := heap3, rl := w.1, now := w.2, cache := cache
        trace := { waits := 1, primary_runs := 1, followup_runs := 0 } }
  | RunnerOutcome.ok result ctxAfter =>
      let heap2 := heapSet heap1 ref { heapGet heap1 ref with context := ctxAfter }
      let ev1 := processItems result.new_items
        { messages := [], events := [], current_agent := current_agent
          handed_off := false, nextId := 0 }
      let fstep :
          EvState × Heap × RateLimiter × ℚ × Nat :=
        if ev1.handed_off then
          let w2 := RateLimiter.wait w.1 w.2
          match followOut with
          | RunnerOutcome.ok fres fctx =>
              let heapF := heapSet heap2 ref { heapGet heap2 ref with context := fctx }
              (processFollowItems fres.new_items ev1, heapF, w2.1, w2.2, 1)
          | RunnerOutcome.err _ fctx =>
              let heapF := heapSet heap2 ref { heapGet heap2 ref with context := fctx }
              (ev1, heapF, w2.1, w2.2, 1)
        else (ev1, heap2, w.1, w.2, 0)
      let ev2 := fstep.1
      let heapF := fstep.2.1
      let new_context := (heapGet heapF ref).context
      let chg := computeChanges old_context new_context
      let ev3 :=
        if chg = [] then ev2
        else
          { ev2 with
            events := ev2.events ++
              [⟨toString ev2.nextId, "context_update", ev2.current_agent, "",
                some (Metadata.changes chg), none⟩]
            nextId := ev2.nextId + 1 }
      let heapP := heapSet heapF ref
        { heapGet heapF ref with
          input_items := result.to_input_list
          current_agent := ev3.current_agent }
      let heapS := storeSave heapP cid ref
      { response :=
          { conversation_id := cid
            current_agent := ev3.current_agent
            messages := ev3.messages
            events := ev3.events
            context := (heapGet heapS ref).context
            agents := agents_roster }
        heap := heapS, rl := fstep.2.2.1, now := fstep.2.2.2.1, cache := cache
        trace := { waits := 1 + fstep.2.2.2.2, primary_runs := 1
                   followup_runs := fstep.2.2.2.2 } }

/-- Modelled from the spec: `create_initial_context` lives in the missing
`main.py`; per the spec it "produces a fresh context value for a brand-new
conversation", a map of domain fields (account/booking identifiers), all
initially unset. -/
def create_initial_context : Ctx :=
  [("passenger_name", Value.none_), ("confirmation_number", Value.none_),
   ("seat_number", Value.none_), ("flight_number", Value.none_),
   ("account_number", Value.none_)]

/-- `api.chat_endpoint` (lines 130–357).  `freshId` models `uuid4().hex`.
A missing/empty/unknown conversation id allocates a fresh state; a
whitespace-only message on such a brand-new conversation short-circuits:
save the empty state and return an empty response with no wait and no run.
Otherwise the turn proper runs on the resolved cell. -/
def chat_endpoint (req : ChatRequest) (freshId : String)
    (primaryOut followOut : RunnerOutcome)
    (heap : Heap) (rl : RateLimiter) (cache : Cache) (now : ℚ) : TurnResult :=
  match lookupConversation heap req.conversation_id with
  | none =>
      let a := heapAlloc heap { input_items := [], context := create_initial_context
                                current_agent := triage_name }
      if pyStrip req.message = "" then
        let heap2 := storeSave a.1 freshId a.2
        { response :=
            { conversation_id := freshId
              current_agent := triage_name
              messages := []
              events := []
              context := create_initial_context
              agents := agents_roster }
          heap := heap2, rl := rl, now := now, cache := cache
          trace := { waits := 0, primary_runs := 0, followup_runs := 0 } }
      else
        chat_turn freshId a.2 req.message primaryOut followOut a.1 rl cache now
  | some p => chat_turn p.1 p.2 req.message primaryOut followOut heap rl cache now

/-! ## Spec-worded comparison definitions -/

/-- Modelled from the spec's words (§4.2), for comparison with
`_create_cache_key`: the fingerprint data must be "serialized trimmed
input, serialized allow-listed context subset, agent name, model
identifier". -/
def spec_cache_key_data (agentName model : String) (input : InputData)
    (context : Option Ctx) : CacheKeyData :=
  { input := pyStrInput (_optimize_input input)
    context := (_optimize_context context).map pyStrCtx
    agent := agentName
    model := model }

/-- Modelled from the spec's words (§4.3 step 2), for comparison with
`_optimize_input`: "trim transcript to a maximum retained-entries count
(keep first entry + most recent N−1) and truncate any entry's text to a
maximum length" — i.e. trimming and entry-wise truncation both apply. -/
def spec_optimize_input : InputData → InputData
  | InputData.str s => InputData.str (truncateContent s)
  | InputData.list items =>
      let kept :=
        if items.length > MAX_CONVERSATION_HISTORY then
          items.take 1 ++ items.drop (items.length - (MAX_CONVERSATION_HISTORY - 1))
        else items
      InputData.list (kept.map truncateEntry)

/-- A transcript entry whose text exceeds `MAX_CONTEXT_LENGTH`. -/
def longEntry : Entry :=
  { role := "user", content := String.mk (List.replicate (MAX_CONTEXT_LENGTH + 1) 'a') }

/-! # Theorems -/

/-! ## Helper lemmas -/

/-- Truncation at an over-long text yields exactly
`MAX_CONTEXT_LENGTH + 3` characters. -/
theorem truncateContent_length_of_long (s : String) (h : s.length > MAX_CONTEXT_LENGTH) :
    (truncateContent s).length = MAX_CONTEXT_LENGTH + 3 := by
  have hlen : (String.mk (s.data.take MAX_CONTEXT_LENGTH)).length = MAX_CONTEXT_LENGTH := by
    simp only [String.length]
    simpa using Nat.le_of_lt h
  simp only [truncateContent, if_pos h, String.length_append, hlen]
  decide

/-- The text of `longEntry` has `MAX_CONTEXT_LENGTH + 1` characters. -/
theorem longEntry_content_length : longEntry.content.length = MAX_CONTEXT_LENGTH + 1 := by
  show (List.replicate (MAX_CONTEXT_LENGTH + 1) 'a').length = MAX_CONTEXT_LENGTH + 1
  exact List.length_replicate _ _

/-- Truncating an entry truncates its text. -/
theorem truncateEntry_content (e : Entry) :
    (truncateEntry e).content = truncateContent e.content := rfl

/-- The over-long entry is changed by truncation. -/
theorem truncateEntry_longEntry_ne : truncateEntry longEntry ≠ longEntry := by
  intro h
  have hc : (truncateEntry longEntry).content.length = longEntry.content.length := by rw [h]
  have ht : (truncateEntry longEntry).content.length = MAX_CONTEXT_LENGTH + 3 := by
    rw [truncateEntry_content]
    exact truncateContent_length_of_long _ (by rw [longEntry_content_length]; exact Nat.lt_succ_self _)
  rw [ht, longEntry_content_length] at hc
  omega

/-! ## C4 — cache key fingerprint data -/

/-- C4 (counterexample): the claim "the cache key is a stable hash over the
serialized trimmed input, the serialized allow-listed context subset, the
agent name, and the model identifier — never over the untrimmed input or
the full context" is false: at a context holding only the non-essential
field `account_number`, the key data `_create_cache_key` feeds the hash
differs from the spec-worded key data (the code serializes the full
context). -/
theorem c4_counterexample :
    _create_cache_key triage_name FAST_MODEL (InputData.str "hi")
        (some [("account_number", Value.str "123")]) ≠
      spec_cache_key_data triage_name FAST_MODEL (InputData.str "hi")
        (some [("account_number", Value.str "123")]) := by
  decide

/-- C4 (amended): the cache key `run_with_optimization` uses is the stable
fingerprint of the serialized **raw** (untrimmed) input, the serialized
**full** context, the agent name, and the model identifier — it is computed
from the arguments as given, before any trimming or allow-listing. -/
theorem c4_key_over_raw_arguments (agentName model : String)
    (invoke : Nat → Except String RunResult) (input : InputData)
    (context : Option Ctx) (maxRetries : Nat) (sys : Sys) :
    (run_with_optimization agentName model invoke input context maxRetries sys).2.2.keyUsed
      = md5_fingerprint (json_dumps_sorted (_create_cache_key agentName model input context)) := by
  rcases h : (get_cached_response sys.now
      (md5_fingerprint (json_dumps_sorted (_create_cache_key agentName model input context)))
      sys.cache).1 with _ | r <;>
    simp only [run_with_optimization, cache_key_of, h]

/-- A cache without a binding for `key` misses and is left unchanged. -/
theorem get_cached_response_miss (now : ℚ) (key : String) (c : Cache)
    (h : c.lookup key = none) : get_cached_response now key c = (none, c) := by
  simp [get_cached_response, CACHE_RESPONSES, h]

/-! ## C3 — retry bound and fallback shape -/

set_option maxRecDepth 4000 in
/-- C3 (counterexample): the claim "run_with_optimization performs exactly
MAX_RETRIES attempts, **each attempt preceded by a rate-limiter wait**, …
and returns a Fallback result … whose canonical transcript **equals the
input transcript unchanged**" is false at an always-failing capability: the
rate limiter is awaited once (not MAX_RETRIES times) and the fallback's
canonical transcript is empty rather than the input transcript. -/
theorem c3_counterexample :
    (run_with_optimization triage_name FAST_MODEL (fun _ => Except.error "boom")
        (InputData.list [⟨"user", "hi"⟩]) none MAX_RETRIES
        ⟨[], ⟨1, 0⟩, 10⟩).2.2.attempts = MAX_RETRIES
    ∧ (run_with_optimization triage_name FAST_MODEL (fun _ => Except.error "boom")
        (InputData.list [⟨"user", "hi"⟩]) none MAX_RETRIES
        ⟨[], ⟨1, 0⟩, 10⟩).2.2.waits = 1
    ∧ ¬ (run_with_optimization triage_name FAST_MODEL (fun _ => Except.error "boom")
        (InputData.list [⟨"user", "hi"⟩]) none MAX_RETRIES
        ⟨[], ⟨1, 0⟩, 10⟩).2.2.waits = MAX_RETRIES
    ∧ (run_with_optimization triage_name FAST_MODEL (fun _ => Except.error "boom")
        (InputData.list [⟨"user", "hi"⟩]) none MAX_RETRIES
        ⟨[], ⟨1, 0⟩, 10⟩).1 = CallOutcome.fallback _create_fallback_response
    ∧ ¬ _create_fallback_response.to_input_list = [⟨"user", "hi"⟩] := by
  decide

/-- C3 (amended): an always-failing model-invocation capability on a cache
miss causes exactly `MAX_RETRIES` attempts with a **single** rate-limiter
wait before the first attempt, backoff sleeps `RETRY_DELAY * 2^0,
RETRY_DELAY * 2^1` between consecutive failures, and a Fallback result
(never an exception) whose produced-items list is empty and whose canonical
transcript is the **empty** list. -/
theorem c3_retry_bound (agentName model : String)
    (invoke : Nat → Except String RunResult) (input : InputData)
    (context : Option Ctx) (sys : Sys)
    (hfail : ∀ n, ∃ e, invoke n = Except.error e)
    (hmiss : sys.cache.lookup (cache_key_of agentName model input context) = none) :
    (run_with_optimization agentName model invoke input context MAX_RETRIES sys).1
        = CallOutcome.fallback _create_fallback_response
    ∧ (run_with_optimization agentName model invoke input context MAX_RETRIES sys).2.2.attempts
        = MAX_RETRIES
    ∧ (run_with_optimization agentName model invoke input context MAX_RETRIES sys).2.2.waits = 1
    ∧ (run_with_optimization agentName model invoke input context MAX_RETRIES sys).2.2.sleeps
        = [RETRY_DELAY * 2 ^ 0, RETRY_DELAY * 2 ^ 1]
    ∧ _create_fallback_response.new_items = []
    ∧ _create_fallback_response.to_input_list = [] := by
  obtain ⟨e0, h0⟩ := hfail 0
  obtain ⟨e1, h1⟩ := hfail 1
  obtain ⟨e2, h2⟩ := hfail 2
  have hget : get_cached_response sys.now
      (md5_fingerprint (json_dumps_sorted (_create_cache_key agentName model input context)))
      sys.cache = (none, sys.cache) :=
    get_cached_response_miss _ _ _ hmiss
  refine ⟨?_, ?_, ?_, ?_, rfl, rfl⟩ <;>
    simp [run_with_optimization, cache_key_of, hget, retryLoopAux, h0, h1, h2, MAX_RETRIES]

/-- Witness for `c3_retry_bound` at a concrete always-failing capability. -/
theorem c3_retry_bound_witness :
    (run_with_optimization triage_name FAST_MODEL (fun _ => Except.error "boom")
        (InputData.str "hello") none MAX_RETRIES ⟨[], ⟨1, 0⟩, 0⟩).1
      = CallOutcome.fallback _create_fallback_response :=
  (c3_retry_bound triage_name FAST_MODEL (fun _ => Except.error "boom")
    (InputData.str "hello") none ⟨[], ⟨1, 0⟩, 0⟩
    (fun _ => ⟨"boom", rfl⟩) rfl).1

/-! ## C5 — cache determinism and rate-limiter frame -/

/-- On a miss with a first attempt that succeeds, `run_with_optimization`
returns the result, caches it under the key with the post-wait time as its
timestamp, and leaves clock and limiter at the post-wait values. -/
theorem run_with_optimization_first_success (agentName model : String)
    (invoke : Nat → Except String RunResult) (input : InputData)
    (context : Option Ctx) (sys : Sys) (r : RunResult)
    (hok : invoke 0 = Except.ok r)
    (hmiss : sys.cache.lookup (cache_key_of agentName model input context) = none) :
    run_with_optimization agentName model invoke input context MAX_RETRIES sys
      = (CallOutcome.ok r,
         { cache := (cache_key_of agentName model input context,
              ⟨r, (RateLimiter.wait sys.rl sys.now).2⟩) ::
              eraseKey sys.cache (cache_key_of agentName model input context)
           rl := (RateLimiter.wait sys.rl sys.now).1
           now := (RateLimiter.wait sys.rl sys.now).2 },
         { keyUsed := cache_key_of agentName model input context
           waits := 1, sleeps := [], attempts := 1
           invokedWith := some (_optimize_input input, _optimize_context context) }) := by
  have hget : get_cached_response sys.now
      (md5_fingerprint (json_dumps_sorted (_create_cache_key agentName model input context)))
      sys.cache = (none, sys.cache) :=
    get_cached_response_miss _ _ _ hmiss
  simp [run_with_optimization, cache_key_of, hget, retryLoopAux, hok, MAX_RETRIES,
    cache_response, CACHE_RESPONSES]

/-- C5: after a first `run_with_optimization` call with a given
`(agent, input, context)` triple succeeds on a cache miss, a second call
with the identical triple whose start time lies within the TTL window of
the cached entry returns the identical result from the cache, performs no
rate-limiter wait and no underlying invocation, and leaves the rate
limiter's last-grant timestamp exactly as the first call left it. -/
theorem c5_cache_hit_bypasses_limiter (agentName model : String)
    (invoke1 invoke2 : Nat → Except String RunResult) (input : InputData)
    (context : Option Ctx) (sys : Sys) (r : RunResult) (t2 : ℚ)
    (hok : invoke1 0 = Except.ok r)
    (hmiss : sys.cache.lookup (cache_key_of agentName model input context) = none)
    (httl : t2 - (RateLimiter.wait sys.rl sys.now).2 < CACHE_TTL) :
    (run_with_optimization agentName model invoke1 input context MAX_RETRIES sys).1
        = CallOutcome.ok r
    ∧ (run_with_optimization agentName model invoke2 input context MAX_RETRIES
        { (run_with_optimization agentName model invoke1 input context MAX_RETRIES sys).2.1
          with now := t2 }).1 = CallOutcome.ok r
    ∧ (run_with_optimization agentName model invoke2 input context MAX_RETRIES
        { (run_with_optimization agentName model invoke1 input context MAX_RETRIES sys).2.1
          with now := t2 }).2.1.rl
        = (run_with_optimization agentName model invoke1 input context MAX_RETRIES sys).2.1.rl
    ∧ (run_with_optimization agentName model invoke2 input context MAX_RETRIES
        { (run_with_optimization agentName model invoke1 input context MAX_RETRIES sys).2.1
          with now := t2 }).2.2.waits = 0
    ∧ (run_with_optimization agentName model invoke2 input context MAX_RETRIES
        { (run_with_optimization agentName model invoke1 input context MAX_RETRIES sys).2.1
          with now := t2 }).2.2.attempts = 0
    ∧ (run_with_optimization agentName model invoke2 input context MAX_RETRIES
        { (run_with_optimization agentName model invoke1 input context MAX_RETRIES sys).2.1
          with now := t2 }).2.2.invokedWith = none := by
  have h1 := run_with_optimization_first_success agentName model invoke1 input context sys r
    hok hmiss
  rw [h1]
  have hhit : get_cached_response t2
      (md5_fingerprint (json_dumps_sorted (_create_cache_key agentName model input context)))
      ((cache_key_of agentName model input context,
          (⟨r, (RateLimiter.wait sys.rl sys.now).2⟩ : CacheEntry)) ::
        eraseKey sys.cache (cache_key_of agentName model input context))
      = (some r,
         (cache_key_of agentName model input context,
            (⟨r, (RateLimiter.wait sys.rl sys.now).2⟩ : CacheEntry)) ::
          eraseKey sys.cache (cache_key_of agentName model input context)) := by
    simp [get_cached_response, CACHE_RESPONSES, List.lookup, cache_key_of, httl]
  simp only [cache_key_of] at hhit
  refine ⟨rfl, ?_, ?_, ?_, ?_, ?_⟩ <;>
    simp [run_with_optimization, cache_key_of, hhit]

/-- Witness for `c5_cache_hit_bypasses_limiter` at a concrete scenario. -/
theorem c5_cache_hit_witness :
    (run_with_optimization triage_name FAST_MODEL
        (fun _ => Except.ok ⟨"ok", [], []⟩) (InputData.str "hello") none MAX_RETRIES
        ⟨[], ⟨1, 0⟩, 0⟩).1 = CallOutcome.ok ⟨"ok", [], []⟩ :=
  (c5_cache_hit_bypasses_limiter triage_name FAST_MODEL
    (fun _ => Except.ok ⟨"ok", [], []⟩) (fun _ => Except.error "later")
    (InputData.str "hello") none ⟨[], ⟨1, 0⟩, 0⟩ ⟨"ok", [], []⟩ 2
    rfl rfl (by norm_num [RateLimiter.wait, CACHE_TTL])).1

/-! ## C9 — input trimming / truncation and context allow-listing -/

/-- C9 (counterexample): the claim "the transcript is trimmed to at most
the maximum retained-entries count … **[and] every entry's text is
truncated to the maximum length**" is false: at a transcript of 11 entries
each holding an over-long text, `_optimize_input` trims to 10 entries and
returns at once, leaving every retained text untruncated, so it differs
from the spec-worded trim-and-truncate. -/
theorem c9_counterexample :
    _optimize_input (InputData.list (List.replicate 11 longEntry)) ≠
      spec_optimize_input (InputData.list (List.replicate 11 longEntry)) := by
  intro h
  have h11 : (List.replicate 11 longEntry).length = 11 := List.length_replicate _ _
  have hgt : (List.replicate 11 longEntry).length > MAX_CONVERSATION_HISTORY := by
    rw [h11]; norm_num [MAX_CONVERSATION_HISTORY]
  have hx : (List.replicate 11 longEntry).take 1 ++
      (List.replicate 11 longEntry).drop
        ((List.replicate 11 longEntry).length - (MAX_CONVERSATION_HISTORY - 1))
      = longEntry :: List.replicate 9 longEntry := by
    rw [h11]
    norm_num [MAX_CONVERSATION_HISTORY, List.take_replicate, List.drop_replicate]
  simp only [_optimize_input, spec_optimize_input, if_pos hgt, hx] at h
  simp only [InputData.list.injEq, List.map_cons, List.cons.injEq] at h
  exact truncateEntry_longEntry_ne h.1.symm

/-- C9 (amended): on a cache miss the invocation receives
`(_optimize_input input, _optimize_context context)`; a transcript longer
than `MAX_CONVERSATION_HISTORY` is trimmed to the first entry plus the most
recent `MAX_CONVERSATION_HISTORY − 1` entries with **no** per-entry
truncation; only a transcript within the bound has every entry's text
truncated (there agreeing with the spec-worded trim-and-truncate); the
context is reduced to the allow-listed essential fields. -/
theorem c9_trim_xor_truncate (agentName model : String)
    (invoke : Nat → Except String RunResult) (input : InputData)
    (context : Option Ctx) (sys : Sys)
    (hmiss : sys.cache.lookup (cache_key_of agentName model input context) = none) :
    (run_with_optimization agentName model invoke input context MAX_RETRIES sys).2.2.invokedWith
      = some (_optimize_input input, _optimize_context context)
    ∧ (∀ items : List Entry, items.length > MAX_CONVERSATION_HISTORY →
        _optimize_input (InputData.list items)
          = InputData.list (items.take 1 ++
              items.drop (items.length - (MAX_CONVERSATION_HISTORY - 1))))
    ∧ (∀ items : List Entry, ¬ items.length > MAX_CONVERSATION_HISTORY →
        _optimize_input (InputData.list items)
          = spec_optimize_input (InputData.list items))
    ∧ (∀ c : Ctx, _optimize_context (some c)
        = some (c.filter (fun p => p.1 ∈ essential_fields))) := by
  have hget : get_cached_response sys.now
      (md5_fingerprint (json_dumps_sorted (_create_cache_key agentName model input context)))
      sys.cache = (none, sys.cache) :=
    get_cached_response_miss _ _ _ hmiss
  refine ⟨?_, ?_, ?_, fun c => rfl⟩
  · simp [run_with_optimization, cache_key_of, hget, MAX_RETRIES]
  · intro items hgt
    simp only [_optimize_input, if_pos hgt]
  · intro items hle
    simp only [_optimize_input, spec_optimize_input, if_neg hle]

/-- Witness for `c9_trim_xor_truncate` at a concrete miss. -/
theorem c9_trim_xor_truncate_witness :
    (run_with_optimization triage_name FAST_MODEL (fun _ => Except.error "boom")
        (InputData.str "hello") none MAX_RETRIES ⟨[], ⟨1, 0⟩, 0⟩).2.2.invokedWith
      = some (_optimize_input (InputData.str "hello"), _optimize_context none) :=
  (c9_trim_xor_truncate triage_name FAST_MODEL (fun _ => Except.error "boom")
    (InputData.str "hello") none ⟨[], ⟨1, 0⟩, 0⟩ rfl).1

/-! ## Item-loop lemmas -/

/-- One step of `processItem` leaves `current_agent` unchanged unless the
item is a handoff, in which case it becomes the handoff's target. -/
theorem processItem_current_agent (st : EvState) (it : Item) :
    (processItem st it).current_agent
      = match it with
        | Item.handoff _ t => t
        | _ => st.current_agent := by
  cases it <;> simp [processItem, handoff_callback]
  case toolCall a tn ra => split <;> rfl

/-- `processItem` turns the `handed_off` flag on exactly at a handoff. -/
theorem processItem_handed_off (st : EvState) (it : Item) :
    (processItem st it).handed_off
      = match it with
        | Item.handoff _ _ => true
        | _ => st.handed_off := by
  cases it <;> simp [processItem, handoff_callback]
  case toolCall a tn ra => split <;> rfl

/-- The last-write fold behind `lastHandoffTarget`: folding from any start
value agrees with folding from `none` wherever the latter is `some`. -/
theorem lastHandoffTarget_foldl (items : List Item) :
    ∀ a : Option String,
      items.foldl
          (fun acc it =>
            match it with
            | Item.handoff _ t => some t
            | _ => acc) a
        = match lastHandoffTarget items with
          | some t => some t
          | none => a := by
  induction items with
  | nil => intro a; rfl
  | cons it rest ih =>
      intro a
      cases it with
      | handoff s t =>
          show rest.foldl _ (some t) = _
          rw [ih (some t)]
          have hl : lastHandoffTarget (Item.handoff s t :: rest)
              = match lastHandoffTarget rest with
                | some u => some u
                | none => some t := by
            show rest.foldl _ (some t) = _
            exact ih (some t)
          rw [hl]
          cases lastHandoffTarget rest <;> rfl
      | message a' txt =>
          show rest.foldl _ a = _
          rw [ih a]
          rfl
      | toolCall a' tn ra =>
          show rest.foldl _ a = _
          rw [ih a]
          rfl
      | toolOutput a' o =>
          show rest.foldl _ a = _
          rw [ih a]
          rfl

/-- After the primary item loop, `current_agent` is the last handoff's
target, or the starting agent when no handoff occurred. -/
theorem processItems_current_agent (items : List Item) :
    ∀ st : EvState,
      (processItems items st).current_agent
        = match lastHandoffTarget items with
          | some t => t
          | none => st.current_agent := by
  induction items with
  | nil => intro st; rfl
  | cons it rest ih =>
      intro st
      show (processItems rest (processItem st it)).current_agent = _
      rw [ih (processItem st it), processItem_current_agent]
      have hl : lastHandoffTarget (it :: rest)
          = match it with
            | Item.handoff _ t =>
                (match lastHandoffTarget rest with
                 | some u => some u
                 | none => some t)
            | _ => lastHandoffTarget rest := by
        cases it <;>
          first
            | rfl
            | · show rest.foldl _ (some _) = _
                rw [lastHandoffTarget_foldl]
      rw [hl]
      cases it <;> cases h : lastHandoffTarget rest <;> rfl

/-- After the primary item loop, `handed_off` reflects whether a handoff
item occurred (or the flag was already set). -/
theorem processItems_handed_off (items : List Item) :
    ∀ st : EvState,
      (processItems items st).handed_off = (st.handed_off || hasHandoff items) := by
  induction items with
  | nil => intro st; simp [processItems, hasHandoff]
  | cons it rest ih =>
      intro st
      show (processItems rest (processItem st it)).handed_off = _
      rw [ih (processItem st it), processItem_handed_off]
      cases it <;> simp [hasHandoff, List.any_cons, Bool.or_assoc]

/-- The follow-up item loop never changes `current_agent` (it has no
handoff arm). -/
theorem processFollowItems_current_agent (items : List Item) :
    ∀ st : EvState, (processFollowItems items st).current_agent = st.current_agent := by
  induction items with
  | nil => intro st; rfl
  | cons it rest ih =>
      intro st
      show (processFollowItems rest (processFollowItem st it)).current_agent = _
      rw [ih]
      cases it <;> simp [processFollowItem]
      case toolCall a tn ra => split <;> rfl

/-! ## C1 — which canonical transcript is persisted -/

/-- A concrete turn scenario for C1: an existing conversation whose primary
invocation hands off and whose follow-up succeeds with a strictly longer
canonical transcript. -/
def c1_heap : Heap :=
  { store := [("c1", 0)]
    cells := fun _ => { input_items := [], context := [], current_agent := triage_name }
    nextRef := 1 }

/-- The primary invocation's result in the C1 scenario. -/
def c1_primary_result : RunResult :=
  { final_output := "routing"
    new_items := [Item.handoff triage_name faq_name]
    to_input_list := [⟨"user", "hi"⟩, ⟨"assistant", "routing"⟩] }

/-- The follow-up invocation's result in the C1 scenario. -/
def c1_followup_result : RunResult :=
  { final_output := "answer"
    new_items := [Item.message faq_name "answer"]
    to_input_list := [⟨"user", "hi"⟩, ⟨"assistant", "routing"⟩, ⟨"assistant", "answer"⟩] }

/-- C1 (counterexample): the claim "for every turn in which a post-handoff
follow-up invocation ran and succeeded, the transcript persisted at the end
of the turn equals the canonical transcript (to_input_list) of the
follow-up invocation" is false: in a turn whose follow-up ran and
succeeded, the persisted transcript is the primary invocation's canonical
transcript, not the follow-up's. -/
theorem c1_counterexample :
    (chat_endpoint ⟨some "c1", "hi"⟩ "fresh"
        (RunnerOutcome.ok c1_primary_result []) (RunnerOutcome.ok c1_followup_result [])
        c1_heap ⟨1, 0⟩ [] 0).trace.followup_runs = 1
    ∧ (heapGet (chat_endpoint ⟨some "c1", "hi"⟩ "fresh"
        (RunnerOutcome.ok c1_primary_result []) (RunnerOutcome.ok c1_followup_result [])
        c1_heap ⟨1, 0⟩ [] 0).heap 0).input_items = c1_primary_result.to_input_list
    ∧ ¬ (heapGet (chat_endpoint ⟨some "c1", "hi"⟩ "fresh"
        (RunnerOutcome.ok c1_primary_result []) (RunnerOutcome.ok c1_followup_result [])
        c1_heap ⟨1, 0⟩ [] 0).heap 0).input_items = c1_followup_result.to_input_list := by
  decide

/-- C1 (amended): for every turn whose primary invocation succeeds, the
transcript persisted at the end of the turn is the canonical transcript
(`to_input_list`) of the **primary** invocation — regardless of whether a
post-handoff follow-up ran or succeeded — and never a locally concatenated
list; the final state is saved under the conversation id. -/
theorem c1_persisted_transcript_is_primary (cid : String) (ref : Nat) (msg : String)
    (result : RunResult) (ctxA : Ctx) (followOut : RunnerOutcome)
    (heap : Heap) (rl : RateLimiter) (cache : Cache) (now : ℚ) :
    (heapGet (chat_turn cid ref msg (RunnerOutcome.ok result ctxA) followOut
        heap rl cache now).heap ref).input_items = result.to_input_list
    ∧ (chat_turn cid ref msg (RunnerOutcome.ok result ctxA) followOut
        heap rl cache now).heap.store.lookup cid = some ref := by
  constructor <;> simp [chat_turn, heapGet, heapSet, storeSave, List.lookup]

/-! ## C2 — the fallback turn -/

/-- An empty heap with no stored conversations. -/
def empty_heap : Heap :=
  { store := []
    cells := fun _ => { input_items := [], context := [], current_agent := "" }
    nextRef := 0 }

/-- C2 (counterexample): the claim "the turn … persists the state
immediately … and returns a response containing exactly one message and
exactly one event, both carrying the apology" is false: a fallback turn on
a brand-new conversation returns one apology message but an **empty**
events list, and writes nothing to the conversation store. -/
theorem c2_counterexample :
    (chat_endpoint ⟨none, "hi"⟩ "fresh" (RunnerOutcome.err "boom" [])
        (RunnerOutcome.ok ⟨"", [], []⟩ []) empty_heap ⟨1, 0⟩ [] 0).response.messages
      = [⟨api_fallback_message, triage_name⟩]
    ∧ (chat_endpoint ⟨none, "hi"⟩ "fresh" (RunnerOutcome.err "boom" [])
        (RunnerOutcome.ok ⟨"", [], []⟩ []) empty_heap ⟨1, 0⟩ [] 0).response.events = []
    ∧ ¬ (chat_endpoint ⟨none, "hi"⟩ "fresh" (RunnerOutcome.err "boom" [])
        (RunnerOutcome.ok ⟨"", [], []⟩ []) empty_heap ⟨1, 0⟩ [] 0).response.events.length = 1
    ∧ (chat_endpoint ⟨none, "hi"⟩ "fresh" (RunnerOutcome.err "boom" [])
        (RunnerOutcome.ok ⟨"", [], []⟩ []) empty_heap ⟨1, 0⟩ [] 0).heap.store = [] := by
  decide

/-- C2 (amended): a turn whose primary invocation fails appends the single
assistant apology entry to the in-memory transcript (after the user
message), leaves `current_agent` as the turn's resolved starting agent and
the context exactly as the failed run left it, skips all remaining turn
states (no follow-up), and returns a response with exactly one apology
message and an **empty** events list; `save` is not called, so the store's
id-to-state bindings are unchanged (the mutations stay visible only through
the aliased state object of an existing conversation). -/
theorem c2_fallback_turn (cid : String) (ref : Nat) (msg e : String) (ctxA : Ctx)
    (followOut : RunnerOutcome) (heap : Heap) (rl : RateLimiter) (cache : Cache) (now : ℚ) :
    (chat_turn cid ref msg (RunnerOutcome.err e ctxA) followOut heap rl cache now).response.messages
      = [⟨api_fallback_message, _get_agent_by_name (heapGet heap ref).current_agent⟩]
    ∧ (chat_turn cid ref msg (RunnerOutcome.err e ctxA) followOut heap rl cache now).response.events
      = []
    ∧ (chat_turn cid ref msg (RunnerOutcome.err e ctxA) followOut
        heap rl cache now).response.current_agent
      = _get_agent_by_name (heapGet heap ref).current_agent
    ∧ (heapGet (chat_turn cid ref msg (RunnerOutcome.err e ctxA) followOut
        heap rl cache now).heap ref).input_items
      = (heapGet heap ref).input_items ++ [⟨"user", msg⟩, ⟨"assistant", api_fallback_message⟩]
    ∧ (heapGet (chat_turn cid ref msg (RunnerOutcome.err e ctxA) followOut
        heap rl cache now).heap ref).current_agent
      = (heapGet heap ref).current_agent
    ∧ (heapGet (chat_turn cid ref msg (RunnerOutcome.err e ctxA) followOut
        heap rl cache now).heap ref).context = ctxA
    ∧ (chat_turn cid ref msg (RunnerOutcome.err e ctxA) followOut heap rl cache now).heap.store
      = heap.store
    ∧ (chat_turn cid ref msg (RunnerOutcome.err e ctxA) followOut
        heap rl cache now).trace.followup_runs = 0 := by
  refine ⟨rfl, rfl, rfl, ?_, ?_, ?_, rfl, rfl⟩ <;>
    simp [chat_turn, heapGet, heapSet]

/-! ## C6 — handoff invariant -/

/-- Unfolding `lastHandoffTarget` over a cons cell. -/
theorem lastHandoffTarget_cons (it : Item) (rest : List Item) :
    lastHandoffTarget (it :: rest)
      = match it with
        | Item.handoff _ t =>
            (match lastHandoffTarget rest with
             | some u => some u
             | none => some t)
        | _ => lastHandoffTarget rest := by
  cases it <;>
    first
      | rfl
      | · show rest.foldl _ (some _) = _
          rw [lastHandoffTarget_foldl]

/-- A last handoff target comes from a handoff item of the list. -/
theorem exists_handoff_of_lastHandoffTarget (items : List Item) (t : String)
    (h : lastHandoffTarget items = some t) : ∃ s, Item.handoff s t ∈ items := by
  induction items with
  | nil => exact absurd h (by simp [lastHandoffTarget])
  | cons it rest ih =>
      rw [lastHandoffTarget_cons] at h
      cases it with
      | handoff s u =>
          cases hr : lastHandoffTarget rest with
          | some v =>
              rw [hr] at h
              have h2 : (some v : Option String) = some t := h
              injection h2 with h3
              subst h3
              obtain ⟨s', hs'⟩ := ih hr
              exact ⟨s', List.mem_cons_of_mem _ hs'⟩
          | none =>
              rw [hr] at h
              have h2 : (some u : Option String) = some t := h
              injection h2 with h3
              subst h3
              exact ⟨s, List.mem_cons_self _ _⟩
      | message a txt =>
          obtain ⟨s', hs'⟩ := ih h
          exact ⟨s', List.mem_cons_of_mem _ hs'⟩
      | toolCall a tn ra =>
          obtain ⟨s', hs'⟩ := ih h
          exact ⟨s', List.mem_cons_of_mem _ hs'⟩
      | toolOutput a o =>
          obtain ⟨s', hs'⟩ := ih h
          exact ⟨s', List.mem_cons_of_mem _ hs'⟩

/-- A list with a last handoff target has a handoff. -/
theorem hasHandoff_of_lastHandoffTarget (items : List Item) (t : String)
    (h : lastHandoffTarget items = some t) : hasHandoff items = true := by
  obtain ⟨s, hs⟩ := exists_handoff_of_lastHandoffTarget items t h
  simp only [hasHandoff, List.any_eq_true]
  exact ⟨_, hs, rfl⟩

/-- `_get_agent_by_name` always lands in the registry. -/
theorem get_agent_registered (x : String) : _get_agent_by_name x ∈ registered_agents := by
  unfold _get_agent_by_name
  split
  · assumption
  · simp [registered_agents]

/-- No registered agent declares itself as a handoff target. -/
theorem declared_handoffs_ne (a t : String) (ha : a ∈ registered_agents)
    (ht : t ∈ declared_handoffs a) : ¬ t = a := by
  simp only [registered_agents, List.mem_cons, List.mem_singleton, List.not_mem_nil,
    or_false] at ha
  rcases ha with rfl | rfl | rfl
  · have hd : declared_handoffs triage_name = [faq_name, trip_name] := rfl
    rw [hd] at ht
    simp only [List.mem_cons, List.mem_singleton, List.not_mem_nil, or_false] at ht
    rcases ht with rfl | rfl <;> decide
  · have hd : declared_handoffs faq_name = [triage_name] := rfl
    rw [hd] at ht
    simp only [List.mem_singleton] at ht
    subst ht
    decide
  · have hd : declared_handoffs trip_name = [triage_name] := rfl
    rw [hd] at ht
    simp only [List.mem_singleton] at ht
    subst ht
    decide

/-- A primary result whose run chained two handoffs and returned to the
starting agent: Triage → FAQ, then FAQ → Triage — each hop a declared
handoff of its own source agent (`simple_agents.py` lines 241 and 245). -/
def c6_chain_result : RunResult :=
  { final_output := "chained"
    new_items := [Item.handoff triage_name faq_name, Item.handoff faq_name triage_name]
    to_input_list := [⟨"user", "hi"⟩, ⟨"assistant", "chained"⟩] }

/-- C6 (counterexample): the claim "if the primary invocation produces at
least one handoff item, the returned current_agent **differs from the
turn's starting agent**" is false: a single run can chain handoffs back to
the starting agent (each hop targeting a declared handoff of its source),
and the item loop sets `current_agent` per handoff item unconditionally, so
the turn returns a `current_agent` equal to the starting agent. -/
theorem c6_counterexample :
    hasHandoff c6_chain_result.new_items = true
    ∧ faq_name ∈ declared_handoffs triage_name
    ∧ triage_name ∈ declared_handoffs faq_name
    ∧ _get_agent_by_name (heapGet c1_heap 0).current_agent = triage_name
    ∧ (chat_turn "c1" 0 "hi" (RunnerOutcome.ok c6_chain_result [])
        (RunnerOutcome.ok c1_followup_result []) c1_heap ⟨1, 0⟩ [] 0).response.current_agent
      = triage_name := by
  decide

/-- C6 (amended): in a turn whose primary invocation produces at least one
handoff item, the returned `current_agent` equals the declared target of
the **last** handoff item and exactly one follow-up invocation is attempted
against it; it need not differ from the turn's starting agent, since a
chain of handoffs within one run can return there. -/
theorem c6_handoff_last_target (cid : String) (ref : Nat) (msg : String)
    (result : RunResult) (ctxA : Ctx) (followOut : RunnerOutcome)
    (heap : Heap) (rl : RateLimiter) (cache : Cache) (now : ℚ) (tgt : String)
    (hlast : lastHandoffTarget result.new_items = some tgt) :
    (chat_turn cid ref msg (RunnerOutcome.ok result ctxA) followOut
        heap rl cache now).response.current_agent = tgt
    ∧ (chat_turn cid ref msg (RunnerOutcome.ok result ctxA) followOut
        heap rl cache now).trace.followup_runs = 1 := by
  have hago : (processItems result.new_items
      ⟨[], [], _get_agent_by_name (heapGet heap ref).current_agent, false, 0⟩).current_agent
      = tgt := by
    have h := processItems_current_agent result.new_items
      ⟨[], [], _get_agent_by_name (heapGet heap ref).current_agent, false, 0⟩
    rw [hlast] at h
    exact h
  have hho : (processItems result.new_items
      ⟨[], [], _get_agent_by_name (heapGet heap ref).current_agent, false, 0⟩).handed_off
      = true := by
    rw [processItems_handed_off, hasHandoff_of_lastHandoffTarget result.new_items tgt hlast]
    rfl
  cases followOut <;>
    · constructor <;>
        (simp only [chat_turn, hho, eq_self_iff_true, if_true] <;>
          (try split) <;> simp [processFollowItems_current_agent, hago])

/-- Witness for `c6_handoff_last_target` at the concrete handoff scenario. -/
theorem c6_handoff_last_target_witness :
    (chat_turn "c1" 0 "hi" (RunnerOutcome.ok c1_primary_result [])
        (RunnerOutcome.ok c1_followup_result []) c1_heap ⟨1, 0⟩ [] 0).response.current_agent
      = faq_name :=
  (c6_handoff_last_target "c1" 0 "hi" c1_primary_result [] (RunnerOutcome.ok c1_followup_result [])
    c1_heap ⟨1, 0⟩ [] 0 faq_name rfl).1

/-! ## C7 — empty-message short-circuit -/

/-- Every turn that reaches `chat_turn` performs exactly one primary
invocation, whatever its outcome. -/
theorem chat_turn_primary_runs (cid : String) (ref : Nat) (msg : String)
    (pOut fOut : RunnerOutcome) (heap : Heap) (rl : RateLimiter) (cache : Cache) (now : ℚ) :
    (chat_turn cid ref msg pOut fOut heap rl cache now).trace.primary_runs = 1 := by
  cases pOut <;> simp [chat_turn]

/-- C7: a request whose conversation id resolves to no stored state and
whose message strips to the empty string short-circuits — fresh id, empty
messages and events, the default triage agent, the initial context, a fresh
empty state saved under the fresh id, and no wait, no invocation, no rate
limiter or cache change; whereas a request on an existing conversation
(empty message or not) proceeds through the normal path and performs its
primary invocation. -/
theorem c7_empty_start_short_circuit :
    (∀ (req : ChatRequest) (freshId : String) (pOut fOut : RunnerOutcome)
        (heap : Heap) (rl : RateLimiter) (cache : Cache) (now : ℚ),
      lookupConversation heap req.conversation_id = none →
      pyStrip req.message = "" →
        (chat_endpoint req freshId pOut fOut heap rl cache now).response.conversation_id = freshId
        ∧ (chat_endpoint req freshId pOut fOut heap rl cache now).response.messages = []
        ∧ (chat_endpoint req freshId pOut fOut heap rl cache now).response.events = []
        ∧ (chat_endpoint req freshId pOut fOut heap rl cache now).response.current_agent
            = triage_name
        ∧ (chat_endpoint req freshId pOut fOut heap rl cache now).response.context
            = create_initial_context
        ∧ (chat_endpoint req freshId pOut fOut heap rl cache now).rl = rl
        ∧ (chat_endpoint req freshId pOut fOut heap rl cache now).cache = cache
        ∧ (chat_endpoint req freshId pOut fOut heap rl cache now).now = now
        ∧ (chat_endpoint req freshId pOut fOut heap rl cache now).trace = ⟨0, 0, 0⟩
        ∧ (chat_endpoint req freshId pOut fOut heap rl cache now).heap.store.lookup freshId
            = some heap.nextRef
        ∧ heapGet (chat_endpoint req freshId pOut fOut heap rl cache now).heap heap.nextRef
            = ⟨[], create_initial_context, triage_name⟩)
    ∧ (∀ (req : ChatRequest) (freshId : String) (pOut fOut : RunnerOutcome)
        (heap : Heap) (rl : RateLimiter) (cache : Cache) (now : ℚ) (cid : String) (ref : Nat),
      lookupConversation heap req.conversation_id = some (cid, ref) →
        (chat_endpoint req freshId pOut fOut heap rl cache now).trace.primary_runs = 1) := by
  constructor
  · intro req freshId pOut fOut heap rl cache now h1 h2
    refine ⟨?_, ?_, ?_, ?_, ?_, ?_, ?_, ?_, ?_, ?_, ?_⟩ <;>
      simp [chat_endpoint, h1, h2, heapAlloc, storeSave, heapGet, List.lookup]
  · intro req freshId pOut fOut heap rl cache now cid ref h
    simp [chat_endpoint, h, chat_turn_primary_runs]

/-- Witness for `c7_empty_start_short_circuit`: a whitespace-only first
message short-circuits; an empty message on a stored conversation still
runs the primary invocation. -/
theorem c7_empty_start_witness :
    (chat_endpoint ⟨none, " "⟩ "fresh" (RunnerOutcome.err "e" []) (RunnerOutcome.err "e" [])
        empty_heap ⟨1, 0⟩ [] 0).response.messages = []
    ∧ (chat_endpoint ⟨some "c1", ""⟩ "fresh" (RunnerOutcome.ok ⟨"o", [], []⟩ [])
        (RunnerOutcome.ok ⟨"o", [], []⟩ []) c1_heap ⟨1, 0⟩ [] 0).trace.primary_runs = 1 :=
  ⟨(c7_empty_start_short_circuit.1 ⟨none, " "⟩ "fresh" (RunnerOutcome.err "e" [])
      (RunnerOutcome.err "e" []) empty_heap ⟨1, 0⟩ [] 0 rfl rfl).2.1,
   c7_empty_start_short_circuit.2 ⟨some "c1", ""⟩ "fresh" (RunnerOutcome.ok ⟨"o", [], []⟩ [])
      (RunnerOutcome.ok ⟨"o", [], []⟩ []) c1_heap ⟨1, 0⟩ [] 0 "c1" 0 rfl⟩

/-! ## C10 — fallback persistence and store aliasing -/

/-- A resolved conversation lookup comes from a store binding. -/
theorem lookupConversation_some (heap : Heap) (o : Option String) (cid : String) (ref : Nat)
    (h : lookupConversation heap o = some (cid, ref)) : heap.store.lookup cid = some ref := by
  cases o with
  | none => exact absurd h (by simp [lookupConversation])
  | some s =>
      simp only [lookupConversation] at h
      by_cases hs : s = ""
      · rw [if_pos hs] at h
        exact absurd h (by simp)
      · rw [if_neg hs] at h
        rcases ho : heap.store.lookup s with _ | r <;> rw [ho] at h
        · exact absurd h (by simp)
        · simp at h
          obtain ⟨rfl, rfl⟩ := h
          exact ho

/-- C10: a fallback turn on a brand-new conversation id writes nothing to
the conversation store — the fresh id is not bound, so the transcript with
the user message and apology is unreachable; on an existing conversation
the same branch's in-place mutations are visible through the store without
`save`, because `get` hands out the stored state object itself. -/
theorem c10_fallback_store_aliasing :
    (∀ (req : ChatRequest) (freshId e : String) (ctxA : Ctx) (fOut : RunnerOutcome)
        (heap : Heap) (rl : RateLimiter) (cache : Cache) (now : ℚ),
      lookupConversation heap req.conversation_id = none →
      ¬ pyStrip req.message = "" →
      heap.store.lookup freshId = none →
        (chat_endpoint req freshId (RunnerOutcome.err e ctxA) fOut
            heap rl cache now).response.conversation_id = freshId
        ∧ (chat_endpoint req freshId (RunnerOutcome.err e ctxA) fOut
            heap rl cache now).heap.store = heap.store
        ∧ (chat_endpoint req freshId (RunnerOutcome.err e ctxA) fOut
            heap rl cache now).heap.store.lookup
            ((chat_endpoint req freshId (RunnerOutcome.err e ctxA) fOut
              heap rl cache now).response.conversation_id) = none)
    ∧ (∀ (req : ChatRequest) (freshId e : String) (ctxA : Ctx) (fOut : RunnerOutcome)
        (heap : Heap) (rl : RateLimiter) (cache : Cache) (now : ℚ) (cid : String) (ref : Nat),
      lookupConversation heap req.conversation_id = some (cid, ref) →
        (chat_endpoint req freshId (RunnerOutcome.err e ctxA) fOut
            heap rl cache now).heap.store.lookup cid = some ref
        ∧ (heapGet (chat_endpoint req freshId (RunnerOutcome.err e ctxA) fOut
            heap rl cache now).heap ref).input_items
          = (heapGet heap ref).input_items ++
              [⟨"user", req.message⟩, ⟨"assistant", api_fallback_message⟩]) := by
  constructor
  · intro req freshId e ctxA fOut heap rl cache now h1 h2 hfresh
    have hcid : (chat_endpoint req freshId (RunnerOutcome.err e ctxA) fOut
        heap rl cache now).response.conversation_id = freshId := by
      simp [chat_endpoint, h1, h2, chat_turn, heapAlloc]
    have hstore : (chat_endpoint req freshId (RunnerOutcome.err e ctxA) fOut
        heap rl cache now).heap.store = heap.store := by
      simp [chat_endpoint, h1, h2, chat_turn, heapAlloc, heapSet]
    exact ⟨hcid, hstore, by rw [hcid, hstore]; exact hfresh⟩
  · intro req freshId e ctxA fOut heap rl cache now cid ref h
    constructor
    · have hstore : (chat_endpoint req freshId (RunnerOutcome.err e ctxA) fOut
          heap rl cache now).heap.store = heap.store := by
        simp [chat_endpoint, h, chat_turn, heapSet]
      rw [hstore]
      exact lookupConversation_some heap req.conversation_id cid ref h
    · simp [chat_endpoint, h, chat_turn, heapGet, heapSet]

/-- Witness for `c10_fallback_store_aliasing`: both halves at concrete
fallback turns. -/
theorem c10_fallback_store_witness :
    (chat_endpoint ⟨none, "hi"⟩ "fresh" (RunnerOutcome.err "boom" [])
        (RunnerOutcome.err "boom" []) empty_heap ⟨1, 0⟩ [] 0).heap.store.lookup "fresh" = none
    ∧ (heapGet (chat_endpoint ⟨some "c1", "hi"⟩ "fresh" (RunnerOutcome.err "boom" [])
        (RunnerOutcome.err "boom" []) c1_heap ⟨1, 0⟩ [] 0).heap 0).input_items
      = [⟨"user", "hi"⟩, ⟨"assistant", api_fallback_message⟩] :=
  ⟨by
    have h := (c10_fallback_store_aliasing.1 ⟨none, "hi"⟩ "fresh" "boom" []
      (RunnerOutcome.err "boom" []) empty_heap ⟨1, 0⟩ [] 0 rfl (by decide) rfl)
    rw [show "fresh" = (chat_endpoint ⟨none, "hi"⟩ "fresh" (RunnerOutcome.err "boom" [])
      (RunnerOutcome.err "boom" []) empty_heap ⟨1, 0⟩ [] 0).response.conversation_id
      from h.1.symm]
    exact h.2.2,
   (c10_fallback_store_aliasing.2 ⟨some "c1", "hi"⟩ "fresh" "boom" []
      (RunnerOutcome.err "boom" []) c1_heap ⟨1, 0⟩ [] 0 "c1" 0 rfl).2⟩

/-! ## C8 — context-diff exactness -/

/-- A single primary-loop step only appends events of the four item types,
never a `context_update`. -/
theorem processItem_no_ctx_event (st : EvState) (it : Item)
    (h : ∀ e ∈ st.events, ¬ e.type = "context_update") :
    ∀ e ∈ (processItem st it).events, ¬ e.type = "context_update" := by
  cases it with
  | message a txt =>
      intro e he
      simp only [processItem] at he
      rcases List.mem_append.mp he with h1 | h2
      · exact h e h1
      · intro ht
        rw [List.mem_singleton.mp h2] at ht
        exact (by decide : ¬ ("message" : String) = "context_update") ht
  | handoff s t =>
      intro e he
      simp only [processItem, handoff_callback] at he
      rcases List.mem_append.mp he with h1 | h2
      · exact h e h1
      · intro ht
        rw [List.mem_singleton.mp h2] at ht
        exact (by decide : ¬ ("handoff" : String) = "context_update") ht
  | toolCall a tn ra =>
      intro e he
      simp only [processItem] at he
      split at he <;>
      · rcases List.mem_append.mp he with h1 | h2
        · exact h e h1
        · intro ht
          rw [List.mem_singleton.mp h2] at ht
          exact (by decide : ¬ ("tool_call" : String) = "context_update") ht
  | toolOutput a o =>
      intro e he
      simp only [processItem] at he
      rcases List.mem_append.mp he with h1 | h2
      · exact h e h1
      · intro ht
        rw [List.mem_singleton.mp h2] at ht
        exact (by decide : ¬ ("tool_output" : String) = "context_update") ht

/-- The primary item loop never emits a `context_update` event. -/
theorem processItems_no_ctx_event (items : List Item) :
    ∀ st : EvState, (∀ e ∈ st.events, ¬ e.type = "context_update") →
      ∀ e ∈ (processItems items st).events, ¬ e.type = "context_update" := by
  induction items with
  | nil => intro st h; exact h
  | cons it rest ih =>
      intro st h
      exact ih (processItem st it) (processItem_no_ctx_event st it h)

/-- A single follow-up-loop step never appends a `context_update` event. -/
theorem processFollowItem_no_ctx_event (st : EvState) (it : Item)
    (h : ∀ e ∈ st.events, ¬ e.type = "context_update") :
    ∀ e ∈ (processFollowItem st it).events, ¬ e.type = "context_update" := by
  cases it with
  | message a txt =>
      intro e he
      simp only [processFollowItem] at he
      rcases List.mem_append.mp he with h1 | h2
      · exact h e h1
      · intro ht
        rw [List.mem_singleton.mp h2] at ht
        exact (by decide : ¬ ("message" : String) = "context_update") ht
  | handoff s t => exact h
  | toolCall a tn ra =>
      intro e he
      simp only [processFollowItem] at he
      split at he <;>
      · rcases List.mem_append.mp he with h1 | h2
        · exact h e h1
        · intro ht
          rw [List.mem_singleton.mp h2] at ht
          exact (by decide : ¬ ("tool_call" : String) = "context_update") ht
  | toolOutput a o =>
      intro e he
      simp only [processFollowItem] at he
      rcases List.mem_append.mp he with h1 | h2
      · exact h e h1
      · intro ht
        rw [List.mem_singleton.mp h2] at ht
        exact (by decide : ¬ ("tool_output" : String) = "context_update") ht

/-- The follow-up item loop never emits a `context_update` event. -/
theorem processFollowItems_no_ctx_event (items : List Item) :
    ∀ st : EvState, (∀ e ∈ st.events, ¬ e.type = "context_update") →
      ∀ e ∈ (processFollowItems items st).events, ¬ e.type = "context_update" := by
  induction items with
  | nil => intro st h; exact h
  | cons it rest ih =>
      intro st h
      exact ih (processFollowItem st it) (processFollowItem_no_ctx_event st it h)

/-- Projections commute with a branch on the changes map. -/
theorem EvState_events_ite (c : Prop) [inst : Decidable c] (a b : EvState) :
    (if c then a else b).events = if c then a.events else b.events := by
  split <;> rfl

/-- The diff-step event list: a `context_update` event is present iff the
changes map is non-empty, and any `context_update` event carries exactly
the changes map in its metadata. -/
theorem ctx_event_characterization (base : List AgentEvent) (chg : List (String × Value))
    (idv ag : String) (hbase : ∀ e ∈ base, ¬ e.type = "context_update") :
    ((∃ e ∈ (if chg = [] then base
        else base ++ [⟨idv, "context_update", ag, "", some (Metadata.changes chg), none⟩]),
        e.type = "context_update")
      ↔ ¬ chg = [])
    ∧ (∀ e ∈ (if chg = [] then base
        else base ++ [⟨idv, "context_update", ag, "", some (Metadata.changes chg), none⟩]),
        e.type = "context_update" →
        e.metadata = some (Metadata.changes chg)) := by
  by_cases hc : chg = []
  · rw [if_pos hc]
    constructor
    · constructor
      · rintro ⟨e, he, ht⟩
        exact absurd ht (hbase e he)
      · intro hne
        exact absurd hc hne
    · intro e he ht
      exact absurd ht (hbase e he)
  · rw [if_neg hc]
    constructor
    · constructor
      · intro _
        exact hc
      · intro _
        refine ⟨⟨idv, "context_update", ag, "", some (Metadata.changes chg), none⟩, ?_, rfl⟩
        exact List.mem_append.mpr (Or.inr (List.mem_singleton.mpr rfl))
    · intro e he ht
      rcases List.mem_append.mp he with h1 | h2
      · exact absurd ht (hbase e h1)
      · rw [List.mem_singleton.mp h2]

/-- C8: a field appears in the changes map iff its new value differs from
what the pre-turn snapshot holds under that key (`dict.get`, `None` when
absent) — unchanged fields never appear; and in every successful turn, a
`context_update` event is present iff the changes map between the pre-turn
context snapshot and the persisted post-turn context is non-empty, and any
such event carries exactly that changes map in its metadata. -/
theorem c8_context_diff_exact :
    (∀ (old newc : Ctx) (k : String) (v : Value),
        (k, v) ∈ computeChanges old newc ↔ (k, v) ∈ newc ∧ ¬ pyGet old k = v)
    ∧ (∀ (cid : String) (ref : Nat) (msg : String) (result : RunResult) (ctxA : Ctx)
        (fOut : RunnerOutcome) (heap : Heap) (rl : RateLimiter) (cache : Cache) (now : ℚ),
        ((∃ e ∈ (chat_turn cid ref msg (RunnerOutcome.ok result ctxA) fOut
            heap rl cache now).response.events, e.type = "context_update")
          ↔ ¬ computeChanges (heapGet heap ref).context
              ((heapGet (chat_turn cid ref msg (RunnerOutcome.ok result ctxA) fOut
                heap rl cache now).heap ref).context) = [])
        ∧ (∀ e ∈ (chat_turn cid ref msg (RunnerOutcome.ok result ctxA) fOut
            heap rl cache now).response.events, e.type = "context_update" →
            e.metadata = some (Metadata.changes (computeChanges (heapGet heap ref).context
              ((heapGet (chat_turn cid ref msg (RunnerOutcome.ok result ctxA) fOut
                heap rl cache now).heap ref).context))))) := by
  constructor
  · intro old newc k v
    simp [computeChanges, List.mem_filter]
  · intro cid ref msg result ctxA fOut heap rl cache now
    have hnil : ∀ e ∈ ([] : List AgentEvent), ¬ e.type = "context_update" :=
      fun e he => absurd he (List.not_mem_nil e)
    have hev1 : ∀ e ∈ (processItems result.new_items
        ⟨[], [], _get_agent_by_name (heap.cells ref).current_agent, false, 0⟩).events,
        ¬ e.type = "context_update" :=
      processItems_no_ctx_event result.new_items _ hnil
    cases hh : (processItems result.new_items
        ⟨[], [], _get_agent_by_name (heap.cells ref).current_agent, false, 0⟩).handed_off with
    | true =>
        cases fOut with
        | ok fres fctx =>
            have hev2 : ∀ e ∈ (processFollowItems fres.new_items (processItems result.new_items
                ⟨[], [], _get_agent_by_name (heap.cells ref).current_agent,
                  false, 0⟩)).events, ¬ e.type = "context_update" :=
              processFollowItems_no_ctx_event fres.new_items _ hev1
            constructor
            · simp only [chat_turn, hh, eq_self_iff_true, if_true, heapGet, heapSet,
                storeSave, EvState_events_ite]
              exact (ctx_event_characterization _ _ _ _ hev2).1
            · simp only [chat_turn, hh, eq_self_iff_true, if_true, heapGet, heapSet,
                storeSave, EvState_events_ite]
              exact (ctx_event_characterization _ _ _ _ hev2).2
        | err e0 fctx =>
            constructor
            · simp only [chat_turn, hh, eq_self_iff_true, if_true, heapGet, heapSet,
                storeSave, EvState_events_ite]
              exact (ctx_event_characterization _ _ _ _ hev1).1
            · simp only [chat_turn, hh, eq_self_iff_true, if_true, heapGet, heapSet,
                storeSave, EvState_events_ite]
              exact (ctx_event_characterization _ _ _ _ hev1).2
    | false =>
        cases fOut with
        | ok fres fctx =>
            constructor
            · simp only [chat_turn, hh, Bool.false_eq_true, if_false, eq_self_iff_true,
                if_true, heapGet, heapSet, storeSave, EvState_events_ite]
              exact (ctx_event_characterization _ _ _ _ hev1).1
            · simp only [chat_turn, hh, Bool.false_eq_true, if_false, eq_self_iff_true,
                if_true, heapGet, heapSet, storeSave, EvState_events_ite]
              exact (ctx_event_characterization _ _ _ _ hev1).2
        | err e0 fctx =>
            constructor
            · simp only [chat_turn, hh, Bool.false_eq_true, if_false, eq_self_iff_true,
                if_true, heapGet, heapSet, storeSave, EvState_events_ite]
              exact (ctx_event_characterization _ _ _ _ hev1).1
            · simp only [chat_turn, hh, Bool.false_eq_true, if_false, eq_self_iff_true,
                if_true, heapGet, heapSet, storeSave, EvState_events_ite]
              exact (ctx_event_characterization _ _ _ _ hev1).2

/-- Witness for `c8_context_diff_exact`: a changed field is in the diff;
a turn that changes the context emits a `context_update` event. -/
theorem c8_context_diff_witness :
    ("passenger_name", Value.str "Bob") ∈
      computeChanges [] [("passenger_name", Value.str "Bob")]
    ∧ (∃ e ∈ (chat_turn "c1" 0 "hi"
        (RunnerOutcome.ok ⟨"o", [], []⟩ [("passenger_name", Value.str "Bob")])
        (RunnerOutcome.err "x" []) c1_heap ⟨1, 0⟩ [] 0).response.events,
        e.type = "context_update") :=
  ⟨(c8_context_diff_exact.1 [] [("passenger_name", Value.str "Bob")] "passenger_name"
      (Value.str "Bob")).mpr ⟨by decide, by decide⟩,
   ((c8_context_diff_exact.2 "c1" 0 "hi" ⟨"o", [], []⟩ [("passenger_name", Value.str "Bob")]
      (RunnerOutcome.err "x" []) c1_heap ⟨1, 0⟩ [] 0).1).mpr (by decide)⟩

end TravIS
